import Mathlib

/-!
Verification development for the tag-expression engine of
`Tigger/bin/tigger_tag.py` (tigger-lsm).

The script processes a list of command-line tokens against a sky-model
catalog: selection tokens (name globs, `=TAG` existence tests,
`TAG<op>VALUE[unit]` comparisons) accumulate a working set of sources, and
mutation tokens (`TAG=[TYPE:]VALUE`, `+TAG`, `!TAG`, `/TAG`) apply typed tag
assignments or removals to the materialized selection.

The embedding below translates the argument-processing logic of `main` and
its helper functions (`apply_selection`, `retrieve_selection`, `getTagValue`,
`lookupObject`, the `select_predicates` table and the four token regexes)
into executable Lean definitions.  Modelling conventions:

* Python machine floats are modelled as rationals (`ℚ`); the `inf`/`nan`
  spellings and digit-group underscores accepted by Python's numeric
  constructors are outside the modelled subset, as is comparison of
  non-numeric tag values (which would raise `TypeError` at runtime).
* `math.pi` is modelled by its 16-significant-digit decimal value; no claim
  below depends on the numeric value of the degree/radian factor.
* Side-effecting console output is modelled as an append-only log of
  abstract entries; the exact message text is informational (spec §4.2).
* `sys.exit`/`parser.error`/uncaught exceptions are modelled as an `Except`
  error result that stops token processing.
-/

namespace TiggerTag

attribute [local semireducible] Rat.add Rat.sub Rat.mul Rat.inv

/-- Python values of the five tag value types used by the script, plus
`None` (the initial value of `newval` in the auto-detect loop).  Floats are
modelled as rationals. -/
inductive PyVal where
  | vnone : PyVal
  | vbool : Bool → PyVal
  | vint : Int → PyVal
  | vfloat : ℚ → PyVal
  | vcomplex : ℚ → ℚ → PyVal
  | vstr : String → PyVal
deriving DecidableEq, Repr

/-- Whitespace characters stripped by Python's numeric constructors. -/
def isWsChar (c : Char) : Bool :=
  c = ' ' || c = '\t' || c = '\n' || c = '\r'

/-- Strips leading and trailing whitespace, as `int()`/`float()`/`complex()`
do with their string argument. -/
def stripWs (cs : List Char) : List Char :=
  ((cs.dropWhile isWsChar).reverse.dropWhile isWsChar).reverse

/-- Value of a (already validated) list of decimal digit characters. -/
def digitsToNat (ds : List Char) : Nat :=
  ds.foldl (fun n c => n * 10 + (c.toNat - '0'.toNat)) 0

/-- Python `int(value)` on a string: optional sign followed by decimal
digits, surrounding whitespace allowed.  (Digit-group underscores are
outside the modelled subset.) -/
def pyIntParse (s : String) : Option Int :=
  let core : List Char → Option Nat := fun ds =>
    if ds.isEmpty then none
    else if ds.all Char.isDigit then some (digitsToNat ds) else none
  match stripWs s.data with
  | '+' :: tl => (core tl).map Int.ofNat
  | '-' :: tl => (core tl).map (fun n => -(n : Int))
  | cs => (core cs).map Int.ofNat

/-- Parses an unsigned float literal (`digits [. digits] [e[±]digits]`, or
`. digits ...`) from the front of a character list; returns the value and
the unconsumed rest, or `none` when no digit is present.  An `e` that is not
followed by a well-formed exponent is left unconsumed. -/
def parseUFloat (cs : List Char) : Option (ℚ × List Char) :=
  let intPart := cs.takeWhile Char.isDigit
  let rest1 := cs.drop intPart.length
  let fracPart :=
    match rest1 with
    | '.' :: tl => tl.takeWhile Char.isDigit
    | _ => []
  let rest2 :=
    match rest1 with
    | '.' :: tl => tl.drop (tl.takeWhile Char.isDigit).length
    | _ => rest1
  if intPart.isEmpty && fracPart.isEmpty && !(rest1.take 1 = ['.']) then none
  else if intPart.isEmpty && (rest1.take 1 = ['.']) && fracPart.isEmpty then none
  else
    let mant : ℚ := (digitsToNat intPart : ℚ) +
      (digitsToNat fracPart : ℚ) / ((10 : ℚ) ^ fracPart.length)
    match rest2 with
    | e :: tl =>
      if e = 'e' || e = 'E' then
        let esign : Int := match tl with
          | '-' :: _ => -1
          | _ => 1
        let tl2 := match tl with
          | '+' :: t => t
          | '-' :: t => t
          | _ => tl
        let eds := tl2.takeWhile Char.isDigit
        if eds.isEmpty then some (mant, rest2)
        else some (mant * (10 : ℚ) ^ (esign * (digitsToNat eds : Int)),
                   tl2.drop eds.length)
      else some (mant, rest2)
    | [] => some (mant, [])

/-- Parses an optionally signed float literal from the front of a character
list. -/
def parseSFloat (cs : List Char) : Option (ℚ × List Char) :=
  match cs with
  | '+' :: tl => parseUFloat tl
  | '-' :: tl => (parseUFloat tl).map (fun p => (-p.1, p.2))
  | _ => parseUFloat cs

/-- Python `float(value)` on a string: a signed float literal consuming the
whole (whitespace-stripped) string. -/
def pyFloatParse (s : String) : Option ℚ :=
  match parseSFloat (stripWs s.data) with
  | some (q, []) => some q
  | _ => none

/-- Strips one matching pair of surrounding parentheses, as `complex()`
allows. -/
def stripParens (cs : List Char) : List Char :=
  match cs with
  | '(' :: tl => if tl.getLast? = some ')' then tl.dropLast else cs
  | _ => cs

/-- Imaginary-unit suffix characters accepted by `complex()`. -/
def jChar (c : Char) : Bool := c = 'j' || c = 'J'

/-- Python `complex(value)` on a string: `a`, `bj`, `a±bj`, `a±j`, `±j` or
`j`, optionally parenthesised, surrounding whitespace allowed.  Returns the
real and imaginary parts. -/
def pyComplexParse (s : String) : Option (ℚ × ℚ) :=
  let cs := stripParens (stripWs s.data)
  match parseSFloat cs with
  | some (a, rest) =>
    match rest with
    | [] => some (a, 0)
    | [c] => if jChar c then some (0, a) else none
    | c :: _ =>
      if c = '+' || c = '-' then
        match parseSFloat rest with
        | some (b, [cj]) => if jChar cj then some (a, b) else none
        | _ =>
          match rest with
          | ['+', cj] => if jChar cj then some (a, 1) else none
          | ['-', cj] => if jChar cj then some (a, -1) else none
          | _ => none
      else none
  | none =>
    match cs with
    | [c] => if jChar c then some ((0 : ℚ), (1 : ℚ)) else none
    | ['+', c] => if jChar c then some ((0 : ℚ), (1 : ℚ)) else none
    | ['-', c] => if jChar c then some ((0 : ℚ), (-1 : ℚ)) else none
    | _ => none

/-- Python `str.lower()` restricted to ASCII (all strings the script
lowercases are ASCII operator/keyword spellings). -/
def strLower (s : String) : String := ⟨s.data.map Char.toLower⟩

/-! ## Data model: sources and nested attributes -/

/-- An attribute slot of a Python object: either a plain tag value or a
sub-object carrying its own named attributes (e.g. `pos`, `flux`, `shape`,
`spectrum`).  Sub-objects are modelled as association lists of named
attribute slots. -/
inductive Attrib where
  | leaf : PyVal → Attrib
  | sub : List (String × Attrib) → Attrib

/-- A catalog source: a unique identity (Python `id()`), a display name and
its named attributes (tag values and sub-objects). -/
structure Source where
  sid : Nat
  name : String
  attrs : List (String × Attrib)

/-- Association-list lookup, first binding wins (Python attribute lookup on
the modelled objects). -/
def lookupA : List (String × Attrib) → String → Option Attrib
  | [], _ => none
  | (k, v) :: rest, n => if k = n then some v else lookupA rest n

/-- Python `getattr(obj, n, None)` on a modelled object.  Plain tag values
carry no user attributes. -/
def getattrA : Attrib → String → Option Attrib
  | .leaf _, _ => none
  | .sub l, n => lookupA l n

/-- Helper for `getTagValue`: scans the candidate objects in order and
returns the first object's value for the tag (`hasattr` then `getattr`),
skipping candidates that are `None`. -/
def firstTag : List (Option Attrib) → String → Option Attrib
  | [], _ => none
  | none :: rest, t => firstTag rest t
  | some o :: rest, t =>
    match getattrA o t with
    | some v => some v
    | none => firstTag rest t

/-- Models `getTagValue(src, tag)`: looks for the tag on the source itself, then on
`src.pos`, `src.flux`, `src.shape`, `src.spectrum` in that fixed order.
(`pos` and `flux` are attribute lookups like the rest; the model treats an
absent one like the absent `shape`/`spectrum`.) -/
def getTagValue (src : Source) (tag : String) : Option Attrib :=
  firstTag [some (.sub src.attrs), lookupA src.attrs "pos", lookupA src.attrs "flux",
            lookupA src.attrs "shape", lookupA src.attrs "spectrum"] tag

/-- Fatal outcomes of token processing: `parser.error`, the
`Can't parse ... as a value of type ...` + `sys.exit(2)` paths, and uncaught
exceptions (modelled abstractly). -/
inductive Fatal where
  | malformedSelection : String → Fatal
  | cantParseTyped : String → String → Fatal
  | noneTypeHasNoAttr : String → Fatal
  | attrError : String → Fatal
deriving DecidableEq, Repr

/-- Helper for `splitOnDot`: accumulates the current segment (reversed). -/
def splitDotAux : List Char → List Char → List (List Char)
  | [], acc => [acc.reverse]
  | '.' :: rest, acc => acc.reverse :: splitDotAux rest []
  | c :: rest, acc => splitDotAux rest (c :: acc)

/-- Python `tagname.split(".")`. -/
def splitOnDot (s : String) : List String :=
  (splitDotAux s.data []).map (fun l => ⟨l⟩)

/-- Walks the leading segments of a dotted attribute path from the current
object, via `getattr(src, subobj, None)`.  When a segment is missing the
script runs
`print("Can't resolve attribute %s for source %s" % (tagname, src.name))`,
but at that point the local `src` has been overwritten with `None`, so
evaluating `src.name` raises `AttributeError` before anything is printed;
`Fatal.noneTypeHasNoAttr` models that uncaught exception. -/
def walkSubs (tagname : String) : Attrib → List String → Except Fatal Attrib
  | cur, [] => .ok cur
  | cur, t :: ts =>
    match getattrA cur t with
    | some nxt => walkSubs tagname nxt ts
    | none => .error (.noneTypeHasNoAttr tagname)

/-- Models `lookupObject(src, tagname)`: resolves the leading segments of a dotted
path to a sub-object and returns it together with the final segment. -/
def lookupObject (src : Source) (tagname : String) : Except Fatal (Attrib × String) :=
  let tags := splitOnDot tagname
  (walkSubs tagname (.sub src.attrs) tags.dropLast).map
    (fun obj => (obj, tags.getLastD ""))

/-- Catalog contract `set_attribute`: replaces the binding when the name is
present, appends it otherwise. -/
def setAssoc (l : List (String × Attrib)) (k : String) (v : Attrib) : List (String × Attrib) :=
  if l.any (fun p => p.1 = k) then
    l.map (fun p => if p.1 = k then (k, v) else p)
  else l ++ [(k, v)]

/-- Catalog contract `remove_attribute`: removing an absent tag is a no-op. -/
def removeAssoc (l : List (String × Attrib)) (k : String) : List (String × Attrib) :=
  l.filter (fun p => ¬ p.1 = k)

/-- Applies an attribute-list update `f` to the object reached by the
leading path segments (the object `lookupObject` returns), with the same
missing-segment failure as `walkSubs`, and rebuilds the enclosing
sub-objects.  A leading segment that resolves to a plain value has no
user attributes, which surfaces as the same uncaught `AttributeError`. -/
def mutAt (tagname : String) (f : List (String × Attrib) → List (String × Attrib)) :
    Attrib → List String → Except Fatal Attrib
  | a, [] =>
    match a with
    | .sub l => .ok (.sub (f l))
    | .leaf _ => .error (.attrError tagname)
  | a, t :: ts =>
    match a with
    | .leaf _ => .error (.noneTypeHasNoAttr tagname)
    | .sub l =>
      match lookupA l t with
      | some nxt => (mutAt tagname f nxt ts).map (fun nxt' => .sub (setAssoc l t nxt'))
      | none => .error (.noneTypeHasNoAttr tagname)

/-- Runs `obj, tag = lookupObject(src, tagname); f(obj, tag)` functionally:
updates the attribute list of the resolved object inside the source. -/
def mutateSource (src : Source)
    (tagname : String)
    (f : List (String × Attrib) → String → List (String × Attrib)) :
    Except Fatal Source :=
  let tags := splitOnDot tagname
  (mutAt tagname (fun l => f l (tags.getLastD "")) (.sub src.attrs) tags.dropLast).map
    (fun a =>
      match a with
      | .sub l => { src with attrs := l }
      | .leaf _ => src)

/-! ## Comparison predicates, units and truthiness -/

/-- Value of `math.pi` (the 64-bit float value, as its 16-significant-digit decimal
reading) over the rationals, and the degree/radian factor `DEG`. -/
def piQ : ℚ := 3141592653589793 / 1000000000000000

/-- Degrees-to-radians factor `DEG = math.pi / 180`. -/
def DEG : ℚ := piQ / 180

/-- The `select_units` dict: `d`, `m`, `s` map to their radian factors. -/
def select_units (c : Char) : Option ℚ :=
  if c = 'd' then some DEG
  else if c = 'm' then some (DEG / 60)
  else if c = 's' then some (DEG / 3600)
  else none

/-- The `select_predicates` dict: symbolic and FORTRAN-style comparison
operator spellings and their predicates.  Queried with the operator already
lowercased (`select_predicates[oper.lower()]`).  Tag values whose comparison
against a float would raise `TypeError` are outside the modelled subset, so
the predicates act on rationals. -/
def select_predicates (oper : String) : Option (ℚ → ℚ → Bool) :=
  if oper = "==" then some (fun x y => decide (x = y))
  else if oper = "!=" then some (fun x y => decide (¬ x = y))
  else if oper = ">=" then some (fun x y => decide (x ≥ y))
  else if oper = "<=" then some (fun x y => decide (x ≤ y))
  else if oper = ">" then some (fun x y => decide (x > y))
  else if oper = "<" then some (fun x y => decide (x < y))
  else if oper = ".eq." then some (fun x y => decide (x = y))
  else if oper = ".ne." then some (fun x y => decide (¬ x = y))
  else if oper = ".ge." then some (fun x y => decide (x ≥ y))
  else if oper = ".le." then some (fun x y => decide (x ≤ y))
  else if oper = ".gt." then some (fun x y => decide (x > y))
  else if oper = ".lt." then some (fun x y => decide (x < y))
  else none

/-- Numeric reading of a tag value for comparison selections (Python `bool`
participates in numeric comparison as 0/1; non-numeric values are outside
the modelled subset). -/
def attrNum : Attrib → Option ℚ
  | .leaf (.vint n) => some (n : ℚ)
  | .leaf (.vfloat q) => some q
  | .leaf (.vbool b) => some (if b then 1 else 0)
  | _ => none

/-- Python truthiness of a tag value, for `=TAG` existence selections; a
sub-object is truthy. -/
def attrTruthy : Attrib → Bool
  | .sub _ => true
  | .leaf .vnone => false
  | .leaf (.vbool b) => b
  | .leaf (.vint n) => decide (¬ n = 0)
  | .leaf (.vfloat q) => decide (¬ q = 0)
  | .leaf (.vcomplex r i) => decide (¬ (r = 0 ∧ i = 0))
  | .leaf (.vstr s) => decide (¬ s = "")

/-! ## Value coercion -/

/-- The explicit `bool` coercion: `True`/`T`/`False`/`F` case-insensitively,
else `bool(int(value))`; an unparseable value is the fatal
`Can't parse "<value>" as a value of type bool` + `sys.exit(2)`. -/
def coerceBool (value : String) : Except Fatal PyVal :=
  let val := strLower value
  if val = "true" || val = "t" then .ok (.vbool true)
  else if val = "false" || val = "f" then .ok (.vbool false)
  else
    match pyIntParse value with
    | some n => .ok (.vbool (decide (¬ n = 0)))
    | none => .error (.cantParseTyped value "bool")

/-- The explicit coercion for the other type names runs
`getattr(globals()["__builtin__"], typename)(value)`.  Under Python 3 the
module's globals have no `"__builtin__"` key (only `__builtins__`), so the
lookup raises `KeyError` inside the `try`, and the bare `except` reports
`Can't parse "<value>" as a value of type <typename>` and exits(2) — for
every value, valid or not. -/
def builtinLookupCoerce (typename value : String) : Except Fatal PyVal :=
  .error (.cantParseTyped value typename)

/-- The auto-detect conversion list: `int`, `float`, `complex`, `str`, in
the loop's order; `str` never fails. -/
def autoConverters : List (String → Option PyVal) :=
  [fun v => (pyIntParse v).map PyVal.vint,
   fun v => (pyFloatParse v).map PyVal.vfloat,
   fun v => (pyComplexParse v).map (fun p => PyVal.vcomplex p.1 p.2),
   fun v => some (PyVal.vstr v)]

/-- The auto-detect loop: `newval = None`, then
`for tp in int, float, complex, str: try: newval = tp(value); break`. -/
def autoConvert (value : String) : Option PyVal :=
  autoConverters.foldl
    (fun nv tp =>
      match nv with
      | some v => some v
      | none => tp value)
    none

/-- Value coercion for an assignment token: explicit `bool`, the other
explicit types (through the failing `__builtin__` lookup), or the
auto-detect loop (whose `None` start value is the fallback the code would
use if every conversion failed). -/
def coerceValue : Option String → String → Except Fatal PyVal
  | some "bool", value => coerceBool value
  | some typename, value => builtinLookupCoerce typename value
  | none, value => .ok ((autoConvert value).getD .vnone)

/-! ## Token classification -/

/-- Characters excluded from the tag group `[^=<>!.]+` of the comparison
regex (every operator alternative starts with one of them). -/
def specialChar (c : Char) : Bool :=
  c = '=' || c = '<' || c = '>' || c = '!' || c = '.'

/-- Case-insensitive `[dms]` (the whole regex carries the `(?i)` flag). -/
def isUnitChar (c : Char) : Bool :=
  c.toLower = 'd' || c.toLower = 'm' || c.toLower = 's'

/-- The operator alternatives in the order of
`"|".join(select_predicates.keys())` (dict insertion order). -/
def opKeys : List String :=
  ["==", "!=", ">=", "<=", ">", "<", ".eq.", ".ne.", ".ge.", ".le.", ".gt.", ".lt."]

/-- Tries the operator alternatives in order at the head of `cs`,
case-insensitively.  An alternative whose match would leave the following
`[^dms]+` value group empty cannot complete the regex, so the engine
backtracks to the next alternative. -/
def tryOps (cs : List Char) : List String → Option (String × List Char)
  | [] => none
  | op :: rest =>
    if (cs.take op.length).map Char.toLower = op.data then
      match cs.drop op.length with
      | c :: tl =>
        if isUnitChar c then tryOps cs rest
        else some (⟨cs.take op.length⟩, c :: tl)
      | [] => tryOps cs rest
    else tryOps cs rest

/-- The `mselcomp` regex
`(?i)^([^=<>!.]+)(==|!=|>=|<=|>|<|\.eq\.|...)([^dms]+)([dms])?` applied
with `re.match`: the tag group is the maximal run of non-`=<>!.` characters
(every operator alternative starts with one of those, so the operator can
only match right after it and the tag group cannot backtrack past it), then
an operator alternative, then a nonempty maximal run of non-`dms`
characters, then an optional unit character.  `re.match` does not anchor
the end, so trailing characters are ignored. -/
def mselcompMatch (s : String) : Option (String × String × String × Option Char) :=
  let cs := s.data
  let tagChars := cs.takeWhile (fun c => !specialChar c)
  if tagChars.isEmpty then none
  else
    match tryOps (cs.drop tagChars.length) opKeys with
    | none => none
    | some (op, after) =>
      let valChars := after.takeWhile (fun c => !isUnitChar c)
      let unit : Option Char :=
        match after.drop valChars.length with
        | c :: _ => if isUnitChar c then some c else none
        | [] => none
      some (⟨tagChars⟩, op, ⟨valChars⟩, unit)

/-- The `mseltag` regex `=(.+)$`: a leading `=` followed by at least one
character (tokens are assumed newline-free). -/
def mseltagMatch (s : String) : Option String :=
  match s.data with
  | '=' :: rest => if rest.isEmpty then none else some ⟨rest⟩
  | _ => none

/-- Splits at the rightmost `=` that has a nonempty suffix: the greedy
group-1 `(.+)` of the `mset` regex takes the longest prefix that still
leaves an `=` and at least one following character. -/
def splitLastEq : List Char → Option (List Char × List Char)
  | [] => none
  | c :: rest =>
    match splitLastEq rest with
    | some (l, r) => some (c :: l, r)
    | none => if c = '=' && !rest.isEmpty then some ([], rest) else none

/-- Whether `p` is a prefix of `cs`. -/
def listStartsWith : List Char → List Char → Bool
  | [], _ => true
  | _ :: _, [] => false
  | p :: ps, c :: cs => (p = c) && listStartsWith ps cs

/-- The explicit type names of the `mset` regex, in alternation order. -/
def typeNames : List String := ["bool", "int", "str", "float", "complex"]

/-- The optional `((bool|int|str|float|complex):)?` group: it participates
only when the final `(.+)` group would still be nonempty (otherwise the
engine drops the optional group). -/
def typeSpecSplit (r : List Char) : Option String × List Char :=
  match typeNames.find? (fun t =>
      listStartsWith (t.data ++ [':']) r && decide (r.length > t.length + 1)) with
  | some t => (some t, r.drop (t.length + 1))
  | none => (none, r)

/-- The `mset` regex `^(.+)=((bool|int|str|float|complex):)?(.+)$`:
tag path, optional explicit type, value. -/
def msetMatch (s : String) : Option (String × Option String × String) :=
  match splitLastEq s.data with
  | some (pre, suf) =>
    if pre.isEmpty then none
    else
      let ov := typeSpecSplit suf
      some (⟨pre⟩, ov.1, ⟨ov.2⟩)
  | none => none

/-- The `msetbool` regex `^([+!/])(.+)$`. -/
def msetboolMatch (s : String) : Option (Char × String) :=
  match s.data with
  | c :: rest =>
    if (c = '+' || c = '!' || c = '/') && !rest.isEmpty then some (c, ⟨rest⟩)
    else none
  | [] => none

/-! ## Shell-style name matching (`fnmatch`) -/

/-- Whether a character-class body (with `a-b` ranges) accepts `c`. -/
def classAccepts : List Char → Char → Bool
  | a :: '-' :: b :: rest, c => (a ≤ c && c ≤ b) || classAccepts rest c
  | a :: rest, c => (a = c) || classAccepts rest c
  | [], _ => false

/-- Scans up to the closing `]`; returns the body so far and the rest. -/
def findClose : List Char → Option (List Char × List Char)
  | [] => none
  | c :: rest =>
    if c = ']' then some ([], rest)
    else (findClose rest).map (fun p => (c :: p.1, p.2))

/-- Parses a `[seq]` class after the opening `[`: optional `!` negation, a
`]` in first position is literal, unterminated classes fail (the `[` is
then matched literally). -/
def splitClass (cs : List Char) : Option (Bool × List Char × List Char) :=
  let neg := cs.take 1 = ['!']
  let cs1 := if neg then cs.drop 1 else cs
  match cs1 with
  | ']' :: rest1 => (findClose rest1).map (fun p => (neg, ']' :: p.1, p.2))
  | _ => (findClose cs1).map (fun p => (neg, p.1, p.2))

/-- Fuel-indexed matcher; every recursive call shrinks `pattern.length +
string.length`, so `globMatch` below supplies enough fuel for the `0` case
to be unreachable.  (Fuel keeps the recursion structural, hence
kernel-reducible.) -/
def globMatchF : Nat → List Char → List Char → Bool
  | 0, _, _ => false
  | _ + 1, [], [] => true
  | _ + 1, [], _ :: _ => false
  | n + 1, '*' :: ps, [] => globMatchF n ps []
  | n + 1, '*' :: ps, c :: cs =>
    globMatchF n ps (c :: cs) || globMatchF n ('*' :: ps) cs
  | _ + 1, '?' :: _, [] => false
  | n + 1, '?' :: ps, _ :: cs => globMatchF n ps cs
  | _ + 1, '[' :: _, [] => false
  | n + 1, '[' :: pr, c :: cs =>
    (match splitClass pr with
     | some (neg, body, rest) => (classAccepts body c != neg) && globMatchF n rest cs
     | none => (c = '[') && globMatchF n pr cs)
  | _ + 1, _ :: _, [] => false
  | n + 1, p :: ps, c :: cs => (p = c) && globMatchF n ps cs

/-- Models `fnmatch.fnmatch(name, pattern)` on POSIX (case-sensitive): `*`, `?`
and `[seq]` wildcards.  First argument the pattern, second the name. -/
def globMatch (p s : List Char) : Bool :=
  globMatchF (p.length + s.length + 1) p s

/-! ## Selection state machine -/

/-- The two selection globals of `main`: `selected_ids` (the accumulator,
a set of `id()` values, `None` before the first selection token) and
`selection` (the materialized list, `None` until a mutation token
materializes it). -/
structure SelState where
  selected_ids : Option (Finset ℕ)
  selection : Option (List Source)

/-- The initial state: no explicit selection. -/
def initState : SelState := ⟨none, none⟩

/-- The identity set of a list of sources (`map(id, sel)` as a set). -/
def idsOf (sel : List Source) : Finset ℕ := (sel.map Source.sid).toFinset

/-- Models `apply_selection(sel, selstr)` without its printing: reset the
accumulator when a materialized selection exists or no selection was made
yet, then add the ids of the matched sources. -/
def apply_selection (sel : List Source) (st : SelState) : SelState :=
  let st1 := if st.selection.isSome || st.selected_ids.isNone
             then { selected_ids := some ∅, selection := none }
             else st
  { st1 with selected_ids := some ((st1.selected_ids.getD ∅) ∪ idsOf sel) }

/-- Models `retrieve_selection()` without its printing: materialize the current
selection — the whole model when no selection token ran, else the sources
whose id is in the accumulator; a selection already materialized is
returned as is. -/
def retrieve_selection (model : List Source) (st : SelState) : List Source × SelState :=
  match st.selection with
  | some sel => (sel, st)
  | none =>
    match st.selected_ids with
    | none => (model, { selected_ids := none, selection := some model })
    | some ids =>
      let sel := model.filter (fun s => decide (s.sid ∈ ids))
      (sel, { selected_ids := some ids, selection := some sel })

/-! ## Token processing -/

/-- Console output events (the exact message text is informational,
spec §4.2; the 0/1/≤5/>5 reporting thresholds appear as the names carried
by `selected`). -/
inductive LogEntry where
  | selecting
  | selected (selstr : String) (count : Nat) (names : List String)
  | noExplicitSelection
  | usingSelected (count : Nat)
  | sourcesList (names : List String)
  | listIgnore
  | settingTag (tag : String)
  | removingTag (tag : String)
  | noSources

/-- The command-line options the core consults (`--list`). -/
structure Options where
  list : Bool

/-- Processing state threaded through the token loop: the catalog model,
the selection globals, the `modified` and `listed` flags and the console
log. -/
structure ProcState where
  model : List Source
  selst : SelState
  modified : Bool
  listed : Bool
  log : List LogEntry

/-- Initial processing state for a loaded model. -/
def initPS (model : List Source) : ProcState :=
  { model := model, selst := initState, modified := false, listed := false, log := [] }

/-- Names printed by the per-token selection report (all of them when at
most five sources matched, none beyond that). -/
def selReportNames (sel : List Source) : List String :=
  if sel.length ≤ 5 then sel.map Source.name else []

/-- Models `apply_selection(sel, selstr)` with its observable effects: clears
`listed`, prints `Selecting sources:` on a reset, reports the match. -/
def applySelectionPS (ps : ProcState) (sel : List Source) (selstr : String) : ProcState :=
  let resetLog : List LogEntry :=
    if ps.selst.selection.isSome || ps.selst.selected_ids.isNone then [.selecting] else []
  { ps with
    selst := apply_selection sel ps.selst,
    listed := false,
    log := ps.log ++ resetLog ++ [.selected selstr sel.length (selReportNames sel)] }

/-- Models `retrieve_selection()` with its observable effects: materialization
messages, and under `--list` the source listing plus the `listed` flag. -/
def retrievePS (opts : Options) (ps : ProcState) : List Source × ProcState :=
  let pr := retrieve_selection ps.model ps.selst
  let entries : List LogEntry :=
    match ps.selst.selection, ps.selst.selected_ids with
    | some _, _ => []
    | none, none => [.noExplicitSelection]
    | none, some _ => [.usingSelected pr.1.length]
  if opts.list then
    let log' := ps.log ++ entries ++ [.sourcesList (pr.1.map Source.name)]
    (pr.1, { ps with selst := pr.2, listed := true, log := log' })
  else
    (pr.1, { ps with selst := pr.2, log := ps.log ++ entries })

/-- The comparison-selection match set: sources whose tag value (via
`getTagValue`) is present and satisfies
`select_predicates[oper.lower()](tag, selval)`. -/
def compSelectTok (model : List Source) (seltag oper : String) (selval : ℚ) : List Source :=
  match select_predicates (strLower oper) with
  | some predicate =>
    model.filter (fun src =>
      match (getTagValue src seltag).bind attrNum with
      | some t => predicate t selval
      | none => false)
  | none => []

/-- Models `obj.setAttribute(tag, newval)` as an attribute-list update. -/
def setAttrAct (newval : PyVal) : List (String × Attrib) → String → List (String × Attrib) :=
  fun l tag => setAssoc l tag (.leaf newval)

/-- Models `obj.removeAttribute(tag)` as an attribute-list update. -/
def removeAttrAct : List (String × Attrib) → String → List (String × Attrib) :=
  fun l tag => removeAssoc l tag

/-- Applies a source mutation to the catalog entry with the given identity
(Python mutates the shared object in place; the model rewrites the list
entry). -/
def updateById (m : List Source) (i : Nat) (f : Source → Except Fatal Source) :
    Except Fatal (List Source) :=
  m.mapM (fun s => if s.sid = i then f s else .ok s)

/-- Models `for src in sources: obj, tag = lookupObject(src, tagname); ...` — the
mutation loop over the materialized selection, stopping at the first
failure. -/
def applyMutAll (model : List Source) (sources : List Source)
    (f : Source → Except Fatal Source) : Except Fatal (List Source) :=
  sources.foldlM (fun m src => updateById m src.sid f) model

/-- One iteration of the argument loop of `main`: classify the token by the
four regexes (comparison selection, tag-existence selection, glob selection
when none match, assignment, boolean/removal mutation) and process it. -/
def processToken (opts : Options) (ps : ProcState) (arg : String) : Except Fatal ProcState :=
  match mselcompMatch arg with
  | some (seltag, oper, selval, unit) =>
    match pyFloatParse selval with
    | none => .error (.malformedSelection arg)
    | some q =>
      let scaled := q * ((unit.bind select_units).getD 1)
      .ok (applySelectionPS ps (compSelectTok ps.model seltag oper scaled) arg)
  | none =>
    match mseltagMatch arg with
    | some seltag =>
      .ok (applySelectionPS ps
        (ps.model.filter (fun src => (getTagValue src seltag).elim false attrTruthy)) arg)
    | none =>
      match msetMatch arg, msetboolMatch arg with
      | none, none =>
        .ok (applySelectionPS ps
          (ps.model.filter (fun src => globMatch arg.data src.name.data)) arg)
      | some (tagname, otype, value), _ =>
        let pr := retrievePS opts ps
        if opts.list then .ok { pr.2 with log := pr.2.log ++ [.listIgnore] }
        else
          match coerceValue otype value with
          | .error e => .error e
          | .ok newval =>
            if pr.1.isEmpty then .ok { pr.2 with log := pr.2.log ++ [.noSources] }
            else
              match applyMutAll pr.2.model pr.1
                  (fun src => mutateSource src tagname (setAttrAct newval)) with
              | .error e => .error e
              | .ok model' =>
                let log' := pr.2.log ++ [LogEntry.settingTag tagname]
                .ok { pr.2 with model := model', modified := true, log := log' }
      | none, some (op, tagname) =>
        let pr := retrievePS opts ps
        if opts.list then .ok { pr.2 with log := pr.2.log ++ [.listIgnore] }
        else
          if pr.1.isEmpty then .ok { pr.2 with log := pr.2.log ++ [.noSources] }
          else
            let act : Source → Except Fatal Source :=
              if op = '+' then (fun src => mutateSource src tagname (setAttrAct (.vbool true)))
              else if op = '!' then (fun src => mutateSource src tagname (setAttrAct (.vbool false)))
              else (fun src => mutateSource src tagname removeAttrAct)
            let entry := if op = '/' then LogEntry.removingTag tagname else LogEntry.settingTag tagname
            match applyMutAll pr.2.model pr.1 act with
            | .error e => .error e
            | .ok model' =>
              .ok { pr.2 with model := model', modified := true, log := pr.2.log ++ [entry] }

/-- The whole argument loop. -/
def processTokens (opts : Options) (ps : ProcState) (args : List String) :
    Except Fatal ProcState :=
  args.foldlM (fun st a => processToken opts st a) ps

/-- The argument loop followed by the trailing
`if options.list and not listed: retrieve_selection()`. -/
def runTokens (opts : Options) (ps : ProcState) (args : List String) :
    Except Fatal ProcState :=
  (processTokens opts ps args).map (fun ps1 =>
    if opts.list && !ps1.listed then (retrievePS opts ps1).2 else ps1)

/-- Whether the run reaches the save section: when `modified` is false the
program prints `Model was not modified` and exits before saving. -/
def wouldSave (ps : ProcState) : Bool := ps.modified

/-! ## Concrete fixtures for witnesses and counterexamples -/

/-- A demo source with a numeric `ra` tag and a `pos` sub-object. -/
def demoSrcA : Source :=
  { sid := 1, name := "A",
    attrs := [("ra", .leaf (.vfloat (1 / 10))), ("pos", .sub [("dec", .leaf (.vfloat 0))])] }

/-- A second demo source with a larger `ra` tag. -/
def demoSrcB : Source :=
  { sid := 2, name := "B",
    attrs := [("ra", .leaf (.vfloat (3 / 10))), ("pos", .sub [("dec", .leaf (.vfloat 0))])] }

/-- A processing state whose accumulator holds an empty selection (e.g.
after a glob token that matched nothing). -/
def demoEmptySelPS : ProcState :=
  { model := [demoSrcA], selst := ⟨some ∅, none⟩, modified := false, listed := false, log := [] }

/-- A processing state whose selection has been materialized (frozen) as
`[demoSrcA]`. -/
def demoFrozenPS : ProcState :=
  { model := [demoSrcA, demoSrcB], selst := ⟨some {1}, some [demoSrcA]⟩,
    modified := false, listed := false, log := [] }

/-! ## Derived notions used by the theorems -/

/-- Running a list of selection-token match sets through `apply_selection`
in order. -/
def apply_selections (st : SelState) (sels : List (List Source)) : SelState :=
  sels.foldl (fun s sel => apply_selection sel s) st

/-- The union of the identity sets of a list of match sets. -/
def unionIds (sels : List (List Source)) : Finset ℕ :=
  sels.foldl (fun a sel => a ∪ idsOf sel) ∅

/-! ## Lemmas about the selection state machine -/

theorem apply_selection_acc (sel : List Source) (ids : Finset ℕ) :
    apply_selection sel ⟨some ids, none⟩ = ⟨some (ids ∪ idsOf sel), none⟩ := rfl

theorem apply_selection_reset (sel : List Source) (st : SelState)
    (h : st.selection.isSome = true ∨ st.selected_ids = none) :
    apply_selection sel st = ⟨some (∅ ∪ idsOf sel), none⟩ := by
  obtain ⟨sids, s⟩ := st
  rcases h with h | h
  · cases s with
    | none => simp at h
    | some sel0 => rfl
  · cases h
    cases s with
    | none => rfl
    | some sel0 => rfl

theorem apply_selections_acc :
    ∀ (sels : List (List Source)) (ids : Finset ℕ),
      apply_selections ⟨some ids, none⟩ sels =
        ⟨some (sels.foldl (fun a sel => a ∪ idsOf sel) ids), none⟩
  | [], _ => rfl
  | s :: rest, ids => by
    show apply_selections (apply_selection s ⟨some ids, none⟩) rest = _
    rw [apply_selection_acc]
    exact apply_selections_acc rest (ids ∪ idsOf s)

/-- A nonempty run of selection tokens from a cycle-start state (initial,
or right after a materialization) leaves exactly the union of the match
sets in the accumulator, with no materialized selection. -/
theorem selections_state (st : SelState)
    (h : st.selection.isSome = true ∨ st.selected_ids = none) :
    ∀ (sels : List (List Source)), sels ≠ [] →
      apply_selections st sels = ⟨some (unionIds sels), none⟩
  | [], hne => absurd rfl hne
  | s :: rest, _ => by
    show apply_selections (apply_selection s st) rest = _
    rw [apply_selection_reset s st h]
    exact apply_selections_acc rest (∅ ∪ idsOf s)

theorem mem_foldl_union_ids :
    ∀ (sels : List (List Source)) (a : Finset ℕ) (x : ℕ),
      (x ∈ sels.foldl (fun a sel => a ∪ idsOf sel) a) ↔
        x ∈ a ∨ ∃ sel ∈ sels, x ∈ idsOf sel
  | [], a, x => by simp
  | s :: rest, a, x => by
    rw [List.foldl_cons, mem_foldl_union_ids rest (a ∪ idsOf s) x]
    simp only [Finset.mem_union, List.mem_cons]
    constructor
    · rintro ((h | h) | ⟨sel, hsel, hx⟩)
      · exact Or.inl h
      · exact Or.inr ⟨s, Or.inl rfl, h⟩
      · exact Or.inr ⟨sel, Or.inr hsel, hx⟩
    · rintro (h | ⟨sel, (rfl | hsel), hx⟩)
      · exact Or.inl (Or.inl h)
      · exact Or.inl (Or.inr hx)
      · exact Or.inr ⟨sel, hsel, hx⟩

theorem mem_unionIds (sels : List (List Source)) (x : ℕ) :
    x ∈ unionIds sels ↔ ∃ sel ∈ sels, x ∈ idsOf sel := by
  rw [unionIds, mem_foldl_union_ids]
  simp

theorem mem_idsOf (l : List Source) (x : ℕ) :
    x ∈ idsOf l ↔ ∃ s ∈ l, s.sid = x := by
  simp [idsOf]

theorem retrieve_acc (model : List Source) (ids : Finset ℕ) :
    retrieve_selection model ⟨some ids, none⟩ =
      (model.filter (fun s => decide (s.sid ∈ ids)),
       ⟨some ids, some (model.filter (fun s => decide (s.sid ∈ ids)))⟩) := rfl

theorem retrieve_frozen (model : List Source) (st : SelState) (msel : List Source)
    (h : st.selection = some msel) :
    retrieve_selection model st = (msel, st) := by
  obtain ⟨sids, s⟩ := st
  cases h
  rfl

theorem retrievePS_fields (opts : Options) (ps : ProcState) :
    ((retrievePS opts ps).2).model = ps.model ∧
    ((retrievePS opts ps).2).modified = ps.modified ∧
    ((retrievePS opts ps).2).selst = (retrieve_selection ps.model ps.selst).2 ∧
    (retrievePS opts ps).1 = (retrieve_selection ps.model ps.selst).1 := by
  obtain ⟨l⟩ := opts
  cases l
  · exact ⟨rfl, rfl, rfl, rfl⟩
  · exact ⟨rfl, rfl, rfl, rfl⟩

/-! ## Claims C4, C5, C6 -/

/-- C4: a consecutive run of selection tokens (no intervening mutation)
starting a fresh accumulation cycle — the initial state or a state whose
previous selection was materialized — accumulates exactly the set union of
the tokens' identity match sets, and the result is independent of the order
of the selection tokens. -/
theorem tigger_C4 (st : SelState)
    (h : st.selection.isSome = true ∨ st.selected_ids = none)
    (sels : List (List Source)) (hne : sels ≠ []) :
    (apply_selections st sels).selected_ids = some (unionIds sels) ∧
    ∀ sels', sels.Perm sels' →
      (apply_selections st sels').selected_ids = (apply_selections st sels).selected_ids := by
  refine ⟨by rw [selections_state st h sels hne], ?_⟩
  intro sels' hp
  have hne' : sels' ≠ [] := by
    intro hnil
    rw [hnil] at hp
    exact hne hp.eq_nil
  rw [selections_state st h sels hne, selections_state st h sels' hne']
  show some (unionIds sels') = some (unionIds sels)
  congr 1
  apply Finset.ext
  intro x
  rw [mem_unionIds, mem_unionIds]
  constructor
  · rintro ⟨sel, hsel, hx⟩
    exact ⟨sel, hp.mem_iff.mpr hsel, hx⟩
  · rintro ⟨sel, hsel, hx⟩
    exact ⟨sel, hp.mem_iff.mp hsel, hx⟩

/-- C4 witness at a concrete state and token run. -/
theorem tigger_C4_witness :
    (apply_selections initState [[demoSrcA], [demoSrcB]]).selected_ids =
      some (unionIds [[demoSrcA], [demoSrcB]]) :=
  (tigger_C4 initState (Or.inr rfl) [[demoSrcA], [demoSrcB]] (by simp)).1

/-- C5: materializing after a run of selection tokens yields exactly the
sources whose identity lies in the accumulated union (equivalently, when
every match set came from the catalog, a source set with identity set equal
to that union); with no preceding selection token in the cycle it yields
the entire source set. -/
theorem tigger_C5 (model : List Source) (sels : List (List Source))
    (hsub : ∀ sel ∈ sels, ∀ s ∈ sel, s ∈ model) :
    (sels = [] →
      (retrieve_selection model (apply_selections initState sels)).1 = model) ∧
    (sels ≠ [] →
      (retrieve_selection model (apply_selections initState sels)).1 =
        model.filter (fun s => decide (s.sid ∈ unionIds sels)) ∧
      idsOf (retrieve_selection model (apply_selections initState sels)).1 =
        unionIds sels) := by
  constructor
  · rintro rfl
    rfl
  · intro hne
    rw [selections_state initState (Or.inr rfl) sels hne, retrieve_acc]
    refine ⟨rfl, ?_⟩
    apply Finset.ext
    intro x
    rw [mem_idsOf]
    constructor
    · rintro ⟨s, hs, rfl⟩
      rw [List.mem_filter] at hs
      exact of_decide_eq_true hs.2
    · intro hx
      have hx' := hx
      rw [mem_unionIds] at hx'
      obtain ⟨sel, hsel, hxs⟩ := hx'
      rw [mem_idsOf] at hxs
      obtain ⟨s, hs, rfl⟩ := hxs
      refine ⟨s, ?_, rfl⟩
      rw [List.mem_filter]
      exact ⟨hsub sel hsel s hs, decide_eq_true hx⟩

/-- C5 witness at a concrete catalog and selection run. -/
theorem tigger_C5_witness :
    (retrieve_selection [demoSrcA, demoSrcB] (apply_selections initState [[demoSrcA]])).1 =
      [demoSrcA, demoSrcB].filter (fun s => decide (s.sid ∈ unionIds [[demoSrcA]])) :=
  (((tigger_C5 [demoSrcA, demoSrcB] [[demoSrcA]] (by
    intro sel hsel s hs
    rw [List.mem_singleton] at hsel
    cases hsel
    rw [List.mem_singleton] at hs
    cases hs
    exact List.mem_cons_self _ _)).2) (by simp)).1

/-- C6: a materialized (frozen) selection is returned unchanged by further
materialize calls, which also leave the selection state untouched — in
particular a boolean/removal mutation token processed at a frozen state
leaves the selection state exactly as it was; and the next selection token
resets the accumulator to its own match set (discarding the frozen one)
with no materialized selection. -/
theorem tigger_C6 (ps : ProcState) (msel sel : List Source)
    (h : ps.selst.selection = some msel) :
    (retrieve_selection ps.model ps.selst).1 = msel ∧
    (retrieve_selection ps.model ps.selst).2 = ps.selst ∧
    (apply_selection sel ps.selst).selected_ids = some (idsOf sel) ∧
    (apply_selection sel ps.selst).selection = none ∧
    (∀ opts tok o n ps', mselcompMatch tok = none → mseltagMatch tok = none →
      msetMatch tok = none → msetboolMatch tok = some (o, n) →
      processToken opts ps tok = .ok ps' → ps'.selst = ps.selst) := by
  have hfr := retrieve_frozen ps.model ps.selst msel h
  have hreset := apply_selection_reset sel ps.selst (Or.inl (by rw [h]; rfl))
  refine ⟨by rw [hfr], by rw [hfr], by rw [hreset]; simp, by rw [hreset], ?_⟩
  intro opts tok o n ps' h1 h2 h3 h4 hok
  have hsel : ((retrievePS opts ps).2).selst = ps.selst := by
    rw [(retrievePS_fields opts ps).2.2.1, hfr]
  simp only [processToken, h1, h2, h3, h4] at hok
  rcases hlist : opts.list with _ | _
  · rw [hlist] at hok
    simp only [Bool.false_eq_true, if_false] at hok
    rcases hemp : ((retrievePS opts ps).1).isEmpty with _ | _
    · rw [hemp] at hok
      simp only [Bool.false_eq_true, if_false] at hok
      rcases hmut : applyMutAll ((retrievePS opts ps).2).model (retrievePS opts ps).1
          (if o = '+' then (fun src => mutateSource src n (setAttrAct (.vbool true)))
           else if o = '!' then (fun src => mutateSource src n (setAttrAct (.vbool false)))
           else (fun src => mutateSource src n removeAttrAct)) with _ | model'
      · rw [hmut] at hok
        cases hok
      · rw [hmut] at hok
        cases hok
        exact hsel
    · rw [hemp] at hok
      simp only [if_true] at hok
      cases hok
      exact hsel
  · rw [hlist] at hok
    simp only [if_true] at hok
    cases hok
    exact hsel

/-- C6 witness at a concrete frozen state. -/
theorem tigger_C6_witness :
    (retrieve_selection demoFrozenPS.model demoFrozenPS.selst).1 = [demoSrcA] ∧
    (apply_selection [demoSrcB] demoFrozenPS.selst).selected_ids = some (idsOf [demoSrcB]) :=
  ⟨(tigger_C6 demoFrozenPS [demoSrcA] [demoSrcB] rfl).1,
   (tigger_C6 demoFrozenPS [demoSrcA] [demoSrcB] rfl).2.2.1⟩

/-! ## Claims C1, C2, C3, C7 -/

/-- C1 (code bug): the explicit-type coercion branch for `complex` (and
`int`, `float`, `str`) is reached through
`getattr(globals()["__builtin__"], typename)(value)`; under Python 3 the
module globals have no `__builtin__` key, so the branch reports
`Can't parse "1+2j" as a value of type complex` and exits(2) even though
`complex("1+2j")` is a perfectly valid parse with real part 1 and imaginary
part 2 — contradicting the claim (and the script's own usage text). -/
theorem tigger_C1_bug :
    processToken ⟨false⟩ (initPS [demoSrcA]) "name=complex:1+2j" =
      .error (.cantParseTyped "1+2j" "complex") ∧
    pyComplexParse "1+2j" = some (1, 2) ∧
    coerceValue (some "complex") "1+2j" = .error (.cantParseTyped "1+2j" "complex") :=
  ⟨rfl, by decide, rfl⟩

/-- C2 counterexample: the token `flux>abc` matches the comparison-selection
shape with a right-hand side that is not a number, and processing it aborts
with the fatal `parser.error` (`Malformed selection string`) instead of
falling through to the next grammar. -/
theorem tigger_C2_counterexample :
    mselcompMatch "flux>abc" = some ("flux", ">", "abc", none) ∧
    pyFloatParse "abc" = none ∧
    processToken ⟨false⟩ (initPS [demoSrcA]) "flux>abc" =
      .error (.malformedSelection "flux>abc") :=
  ⟨by decide, by decide, rfl⟩

/-- C2 amended: for every token matched by the comparison-selection grammar
whose right-hand side does not parse as a number, the run aborts
immediately with the fatal `Malformed selection string` error naming the
token (it does not fall through to the next grammar). -/
theorem tigger_C2_amended (opts : Options) (ps : ProcState) (tok : String)
    (t o v : String) (u : Option Char)
    (hm : mselcompMatch tok = some (t, o, v, u)) (hf : pyFloatParse v = none) :
    processToken opts ps tok = .error (.malformedSelection tok) := by
  simp only [processToken, hm, hf]

/-- C2 amended, witnessed at the concrete token `ra>x`. -/
theorem tigger_C2_amended_witness :
    processToken ⟨false⟩ (initPS [demoSrcA]) "ra>x" = .error (.malformedSelection "ra>x") :=
  tigger_C2_amended ⟨false⟩ (initPS [demoSrcA]) "ra>x" "ra" ">" "x" none
    (by decide) (by decide)

/-- C3 (code bug): when an intermediate segment of a dotted attribute path
does not resolve (`demoSrcA` has no sub-object `foo`), `lookupObject`'s
error branch evaluates `src.name` after `src` has been overwritten with
`None`, raising `AttributeError` — the run aborts with an uncaught
exception (non-zero outcome) but the intended message naming the path and
the source is never printed (and as written it would have named the `None`,
not the source).  The same failure surfaces through a full assignment
token. -/
theorem tigger_C3_bug :
    lookupObject demoSrcA "foo.bar" = .error (.noneTypeHasNoAttr "foo.bar") ∧
    processToken ⟨false⟩ (initPS [demoSrcA]) "foo.bar=1" =
      .error (.noneTypeHasNoAttr "foo.bar") :=
  ⟨rfl, rfl⟩

/-- C7 counterexample: a mutation token reached with zero sources in the
materialized selection is not always skipped — value coercion runs before
the empty-selection check, so `x=bool:zzz` aborts the run (exit 2) instead
of emitting the notice and continuing. -/
theorem tigger_C7_counterexample :
    (retrieve_selection demoEmptySelPS.model demoEmptySelPS.selst).1 = [] ∧
    processToken ⟨false⟩ demoEmptySelPS "x=bool:zzz" =
      .error (.cantParseTyped "zzz" "bool") :=
  ⟨rfl, rfl⟩

/-- C7 amended: a mutation token reached with zero sources in the
materialized selection, *whose value coercion does not itself abort*
(boolean/removal tokens always qualify; assignment tokens qualify when the
coercion succeeds), is skipped: no attribute is set or removed, the
modified flag is unchanged, the `No sources selected` notice is emitted,
and processing continues with the next token. -/
theorem tigger_C7_amended (opts : Options) (ps : ProcState) (tok : String)
    (hempty : (retrieve_selection ps.model ps.selst).1 = [])
    (hlist : opts.list = false)
    (h1 : mselcompMatch tok = none) (h2 : mseltagMatch tok = none)
    (hmut : (∃ g, msetMatch tok = some g ∧ ∃ w, coerceValue g.2.1 g.2.2 = .ok w) ∨
            (msetMatch tok = none ∧ ∃ p, msetboolMatch tok = some p)) :
    ∃ ps', processToken opts ps tok = .ok ps' ∧
      ps'.model = ps.model ∧ ps'.modified = ps.modified ∧
      ps'.log = ((retrievePS opts ps).2).log ++ [LogEntry.noSources] := by
  have hfst : (retrievePS opts ps).1 = [] := by
    rw [(retrievePS_fields opts ps).2.2.2, hempty]
  have hm := (retrievePS_fields opts ps).1
  have hmo := (retrievePS_fields opts ps).2.1
  rcases hmut with ⟨⟨tagname, otype, value⟩, hms, w, hw⟩ | ⟨hms, ⟨o, n⟩, hmb⟩
  · refine ⟨{ (retrievePS opts ps).2 with log := ((retrievePS opts ps).2).log ++ [.noSources] },
      ?_, hm, hmo, rfl⟩
    simp only [processToken, h1, h2, hms, hlist, Bool.false_eq_true, if_false, hw, hfst,
      List.isEmpty_nil, if_true]
  · refine ⟨{ (retrievePS opts ps).2 with log := ((retrievePS opts ps).2).log ++ [.noSources] },
      ?_, hm, hmo, rfl⟩
    simp only [processToken, h1, h2, hms, hmb, hlist, Bool.false_eq_true, if_false, hfst,
      List.isEmpty_nil, if_true]

/-- C7 amended, witnessed: an empty materialized selection followed by
`+dE` skips the mutation, emits the notice and continues. -/
theorem tigger_C7_amended_witness :
    ∃ ps', processToken ⟨false⟩ demoEmptySelPS "+dE" = .ok ps' ∧
      ps'.model = demoEmptySelPS.model ∧ ps'.modified = demoEmptySelPS.modified ∧
      ps'.log = ((retrievePS ⟨false⟩ demoEmptySelPS).2).log ++ [LogEntry.noSources] :=
  tigger_C7_amended ⟨false⟩ demoEmptySelPS "+dE" rfl rfl (by decide) (by decide)
    (Or.inr ⟨by decide, ⟨('+', "dE"), by decide⟩⟩)

/-! ## Claim C8 -/

/-- C8: every symbolic comparison operator and its FORTRAN-style alias
(case-insensitively) select identical source sets for every catalog, tag
and comparison value — both spellings reach the same predicate through
`select_predicates[oper.lower()]`; and the example tokens `ra>10d` and
`ra.gt.10d` parse to the same tag, value and unit with the paired
operators. -/
theorem tigger_C8 (model : List Source) (tag : String) (q : ℚ) :
    compSelectTok model tag "==" q = compSelectTok model tag ".eq." q ∧
    compSelectTok model tag "!=" q = compSelectTok model tag ".ne." q ∧
    compSelectTok model tag "<" q = compSelectTok model tag ".lt." q ∧
    compSelectTok model tag "<=" q = compSelectTok model tag ".le." q ∧
    compSelectTok model tag ">" q = compSelectTok model tag ".gt." q ∧
    compSelectTok model tag ">=" q = compSelectTok model tag ".ge." q ∧
    compSelectTok model tag ".EQ." q = compSelectTok model tag "==" q ∧
    compSelectTok model tag ".NE." q = compSelectTok model tag "!=" q ∧
    compSelectTok model tag ".LT." q = compSelectTok model tag "<" q ∧
    compSelectTok model tag ".LE." q = compSelectTok model tag "<=" q ∧
    compSelectTok model tag ".GT." q = compSelectTok model tag ">" q ∧
    compSelectTok model tag ".GE." q = compSelectTok model tag ">=" q ∧
    mselcompMatch "ra>10d" = some ("ra", ">", "10", some 'd') ∧
    mselcompMatch "ra.gt.10d" = some ("ra", ".gt.", "10", some 'd') :=
  ⟨rfl, rfl, rfl, rfl, rfl, rfl, rfl, rfl, rfl, rfl, rfl, rfl, by decide, by decide⟩

/-! ## Claim C9 -/

/-- C9: auto-detect coercion tries, in the fixed order integer →
floating-point → complex → text, and returns the first successful parse;
the text parse always succeeds, so the loop always yields a value. -/
theorem tigger_C9 (v : String) :
    (∀ n, pyIntParse v = some n → autoConvert v = some (.vint n)) ∧
    (pyIntParse v = none → ∀ q, pyFloatParse v = some q →
      autoConvert v = some (.vfloat q)) ∧
    (pyIntParse v = none → pyFloatParse v = none →
      ∀ r i, pyComplexParse v = some (r, i) → autoConvert v = some (.vcomplex r i)) ∧
    (pyIntParse v = none → pyFloatParse v = none → pyComplexParse v = none →
      autoConvert v = some (.vstr v)) ∧
    (autoConvert v).isSome = true := by
  refine ⟨?_, ?_, ?_, ?_, ?_⟩
  · intro n hn
    simp [autoConvert, autoConverters, hn]
  · intro hn q hq
    simp [autoConvert, autoConverters, hn, hq]
  · intro hn hq r i hc
    simp [autoConvert, autoConverters, hn, hq, hc]
  · intro hn hq hc
    simp [autoConvert, autoConverters, hn, hq, hc]
  · rcases hn : pyIntParse v with _ | n
    · rcases hq : pyFloatParse v with _ | q
      · rcases hc : pyComplexParse v with _ | rc
        · simp [autoConvert, autoConverters, hn, hq, hc]
        · simp [autoConvert, autoConverters, hn, hq, hc]
      · simp [autoConvert, autoConverters, hn, hq]
    · simp [autoConvert, autoConverters, hn]

/-- C9 witness: `1+2j` fails the integer and float parses and is taken by
the complex parse. -/
theorem tigger_C9_witness : autoConvert "1+2j" = some (.vcomplex 1 2) :=
  (tigger_C9 "1+2j").2.2.1 (by decide) (by decide) 1 2 (by decide)

/-! ## Claim C10 -/

theorem processToken_list_preserves (ps ps' : ProcState) (a : String)
    (h : processToken ⟨true⟩ ps a = .ok ps') :
    ps'.model = ps.model ∧ ps'.modified = ps.modified := by
  have hrm := (retrievePS_fields ⟨true⟩ ps).1
  have hrmo := (retrievePS_fields ⟨true⟩ ps).2.1
  rcases hm1 : mselcompMatch a with _ | ⟨t, o, v, u⟩
  · rcases hm2 : mseltagMatch a with _ | t
    · rcases hm3 : msetMatch a with _ | g
      · rcases hm4 : msetboolMatch a with _ | p
        · simp only [processToken, hm1, hm2, hm3, hm4] at h
          cases h
          exact ⟨rfl, rfl⟩
        · simp only [processToken, hm1, hm2, hm3, hm4, if_true] at h
          cases h
          exact ⟨hrm, hrmo⟩
      · simp only [processToken, hm1, hm2, hm3, if_true] at h
        cases h
        exact ⟨hrm, hrmo⟩
    · simp only [processToken, hm1, hm2] at h
      cases h
      exact ⟨rfl, rfl⟩
  · rcases hf : pyFloatParse v with _ | q
    · simp only [processToken, hm1, hf] at h
      simp at h
    · simp only [processToken, hm1, hf] at h
      cases h
      exact ⟨rfl, rfl⟩

theorem processTokens_list_preserves :
    ∀ (args : List String) (ps ps' : ProcState),
      processTokens ⟨true⟩ ps args = .ok ps' →
      ps'.model = ps.model ∧ ps'.modified = ps.modified
  | [], ps, ps', h => by
    cases h
    exact ⟨rfl, rfl⟩
  | a :: rest, ps, ps', h => by
    rcases hstep : processToken ⟨true⟩ ps a with e | ps1
    · exfalso
      simp only [processTokens, List.foldlM_cons, hstep] at h
      exact Except.noConfusion h
    · have hrest : processTokens ⟨true⟩ ps1 rest = .ok ps' := by
        simp only [processTokens, List.foldlM_cons, hstep] at h
        exact h
      obtain ⟨h1, h2⟩ := processToken_list_preserves ps ps1 a hstep
      obtain ⟨h3, h4⟩ := processTokens_list_preserves rest ps1 ps' hrest
      exact ⟨h3.trans h1, h4.trans h2⟩

/-- C10: with `--list` active, no token mutates the catalog — for any token
sequence that completes, the model is unchanged, the modified flag (false
at start) stays false for the entire run, and the catalog is never saved
(the program exits at the `Model was not modified` check). -/
theorem tigger_C10 (args : List String) (ps : ProcState) (hmod : ps.modified = false) :
    ∀ ps', runTokens ⟨true⟩ ps args = .ok ps' →
      ps'.model = ps.model ∧ ps'.modified = false ∧ wouldSave ps' = false := by
  intro ps' h
  rcases hp : processTokens ⟨true⟩ ps args with e | ps1
  · exfalso
    simp only [runTokens, hp] at h
    simp [Except.map] at h
  · simp only [runTokens, hp, Except.map] at h
    obtain ⟨h1, h2⟩ := processTokens_list_preserves args ps ps1 hp
    cases h
    rcases hl : ps1.listed with _ | _
    · simp only [hl, Bool.not_false, Bool.and_true]
      refine ⟨((retrievePS_fields ⟨true⟩ ps1).1).trans h1, ?_, ?_⟩
      · exact ((retrievePS_fields ⟨true⟩ ps1).2.1).trans (h2.trans hmod)
      · exact ((retrievePS_fields ⟨true⟩ ps1).2.1).trans (h2.trans hmod)
    · simp only [hl, Bool.not_true, Bool.and_false, if_false]
      exact ⟨h1, h2.trans hmod, h2.trans hmod⟩

/-- C10 witness: a concrete `--list` run with a mutation token leaves the
model unchanged, unmodified and unsaved. -/
theorem tigger_C10_witness :
    ∃ ps', runTokens ⟨true⟩ (initPS [demoSrcA]) ["+dE"] = .ok ps' ∧
      ps'.model = (initPS [demoSrcA]).model ∧ ps'.modified = false ∧
      wouldSave ps' = false :=
  ⟨_, rfl, tigger_C10 ["+dE"] (initPS [demoSrcA]) rfl _ rfl⟩

/-! ## Validation of the embedding on concrete inputs

Sanity checks that the embedded classifier, parsers and pipeline agree with
the Python behaviour at representative inputs. -/

example : mselcompMatch "ra>10d" = some ("ra", ">", "10", some 'd') := by decide
example : mselcompMatch "ra.gt.10d" = some ("ra", ".gt.", "10", some 'd') := by decide
example : mselcompMatch "ra.GT.10d" = some ("ra", ".GT.", "10", some 'd') := by decide
example : mselcompMatch "ra>x" = some ("ra", ">", "x", none) := by decide
example : mselcompMatch "name=complex:1+2j" = none := by decide
example : mselcompMatch "a.b=1" = none := by decide
example : mselcompMatch "=dE" = none := by decide
example : mselcompMatch "r>=d5" = some ("r", ">", "=", some 'd') := by decide
example : mseltagMatch "=dE" = some "dE" := by decide
example : msetMatch "x=bool:zzz" = some ("x", some "bool", "zzz") := by decide
example : msetMatch "name=complex:1+2j" = some ("name", some "complex", "1+2j") := by decide
example : msetMatch "foo.bar=1" = some ("foo.bar", none, "1") := by decide
example : msetMatch "a=b=" = some ("a", none, "b=") := by decide
example : msetMatch "x=int:" = some ("x", none, "int:") := by decide
example : msetboolMatch "+dE" = some ('+', "dE") := by decide
example : msetboolMatch "/dE" = some ('/', "dE") := by decide
example : globMatch "*".data "Anything".data = true := by decide
example : globMatch "A?c".data "Abc".data = true := by decide
example : globMatch "[a-c]x".data "bx".data = true := by decide
example : globMatch "[!a-c]x".data "bx".data = false := by decide
example : globMatch "N*".data "A".data = false := by decide
example : processToken ⟨false⟩ (initPS [demoSrcA]) "ra>x" =
    .error (.malformedSelection "ra>x") := by rfl
example : processToken ⟨false⟩ (initPS [demoSrcA]) "name=complex:1+2j" =
    .error (.cantParseTyped "1+2j" "complex") := by rfl
example : processToken ⟨false⟩ (initPS [demoSrcA]) "foo.bar=1" =
    .error (.noneTypeHasNoAttr "foo.bar") := by rfl
example : lookupObject demoSrcA "foo.bar" = .error (.noneTypeHasNoAttr "foo.bar") := by rfl
example : processToken ⟨false⟩ demoEmptySelPS "x=bool:zzz" =
    .error (.cantParseTyped "zzz" "bool") := by rfl
example : (retrieve_selection demoEmptySelPS.model demoEmptySelPS.selst).1 = [] := by rfl
example : pyIntParse "42" = some 42 := by decide
example : pyIntParse "-7" = some (-7) := by decide
example : pyIntParse "1.5" = none := by decide
example : pyFloatParse "1.5" = some (3/2) := by decide
example : pyFloatParse "10" = some 10 := by decide
example : pyFloatParse "x" = none := by decide
example : pyFloatParse "-2e3" = some (-2000) := by decide
example : pyFloatParse "1e-2" = some (1/100) := by decide
example : pyFloatParse ".5" = some (1/2) := by decide
example : pyFloatParse "1." = some 1 := by decide
example : pyFloatParse "." = none := by decide
example : pyFloatParse "1e" = none := by decide
example : pyComplexParse "1+2j" = some (1, 2) := by decide
example : pyComplexParse "2j" = some (0, 2) := by decide
example : pyComplexParse "j" = some (0, 1) := by decide
example : pyComplexParse "1-j" = some (1, -1) := by decide
example : pyComplexParse "(1+2j)" = some (1, 2) := by decide
example : pyComplexParse "3" = some (3, 0) := by decide
example : pyComplexParse "1+2" = none := by decide
example : pyComplexParse "1e+2j" = some (0, 100) := by decide
example : strLower ".GT." = ".gt." := by decide

end TiggerTag
